import Mathlib

/-!
Shallow embedding of the core of `oanda.go` (oanda-cli): the line-delimited
live-stream consumers (`getStream`, `getTransactionStream`), the heartbeat
watchdog goroutine, the candle ordering rule `Candlestick.NewerThan`, and the
polling candle feed (`getCandlesStream`, `getCandlesForStream`).

Modelling conventions:
- `time.Time` values are modelled as integer instants (`Int`); `After`,
  `Equal`, `Before` become `>`, `=`, `<`.
- A line of a live stream is its raw bytes (`String`) together with the
  outcome of parsing it as JSON (`Option JValue`, `none` for text that is not
  well-formed JSON); the textual JSON grammar itself is abstracted, the
  field-extraction semantics of `encoding/json` struct unmarshalling is
  embedded explicitly.
- Reading past the end of the stream is `bufio.Reader.ReadLine` returning
  `io.EOF`: ReadLine either returns a non-nil line or an error, never both,
  so the model of the read loop returns the EOF error on an exhausted input.
- The goroutine channel send of a heartbeat signal is modelled by counting
  the signals the consumer emits; the watchdog goroutine is a step function
  on the two events its `select` can wake on.
- Dereferencing a nil slice pointer (`*candles`) is a Go runtime panic; the
  poll-cycle model has an explicit `panicNilDeref` outcome for it.
-/

namespace Oanda

/-- A JSON value, as `encoding/json` sees one after parsing.  Numbers are
modelled as integers: no claim depends on numeric JSON payloads beyond their
not being strings. -/
inductive JValue where
  | null
  | bool (b : Bool)
  | num (n : Int)
  | str (s : String)
  | arr (elems : List JValue)
  | obj (fields : List (String × JValue))

/-- Failure modes of `json.Unmarshal` as used by this program.
`typeFieldNotString` is the UnmarshalTypeError for the discriminant field of
`PriceOrHeartbeat`/`TransactionOrHeartbeat`; `stringFieldNotString f` the one
for the string field of `CandlesResponseBody` hit by JSON key `f`. -/
inductive DecodeError where
  | invalidJSON
  | notAnObject
  | typeFieldNotString
  | stringFieldNotString (field : String)
deriving DecidableEq, Repr

/-- ASCII lower-casing of one character's code point: `A`..`Z` shift to
`a`..`z`, everything else is unchanged. -/
def asciiLowerVal (c : Char) : Nat :=
  if 65 ≤ c.toNat ∧ c.toNat ≤ 90 then c.toNat + 32 else c.toNat

/-- `strings.EqualFold` on field names: `encoding/json` matches a JSON key to
a struct field preferring an exact match but also accepting a
case-insensitive one.  Modelled by ASCII folding — every field name this
program matches against (`type`, `candles`, `granularity`, `instrument`) is
plain ASCII. -/
def eqFold (a b : String) : Bool :=
  a.data.map asciiLowerVal == b.data.map asciiLowerVal

/-- A JSON value that can be stored in a Go `string` field without error:
a string, or `null` (which leaves the field untouched). -/
def isStringOrNull : JValue → Bool
  | JValue.str _ => true
  | JValue.null => true
  | _ => false

/-- A JSON value that `encoding/json` accepts at the top level for a struct
target: an object, or `null` (a no-op). -/
def isObjOrNull : JValue → Bool
  | JValue.obj _ => true
  | JValue.null => true
  | _ => false

/-- Go struct `PriceOrHeartbeat { Type string }` (and the identical
`TransactionOrHeartbeat`): only the discriminant field `type` is decoded. -/
structure PriceOrHeartbeat where
  «Type» : String
deriving DecidableEq, Repr

/-- One field of a JSON object, applied in order to the accumulated `Type`
value: `encoding/json` processes the object's keys in order, matching each
against the struct's one field case-insensitively (`eqFold`), so keys
`"type"`, `"Type"`, `"TYPE"`, ... all hit the discriminant, a later matching
key overwrites an earlier one, and a matching key whose value is neither a
string nor `null` fails the unmarshal. -/
def decodeTypeFieldStep (acc : Except DecodeError String) (kv : String × JValue) :
    Except DecodeError String :=
  match acc with
  | Except.error e => Except.error e
  | Except.ok cur =>
    if eqFold kv.1 "type" then
      match kv.2 with
      | JValue.str s => Except.ok s
      | JValue.null => Except.ok cur
      | _ => Except.error DecodeError.typeFieldNotString
    else Except.ok cur

/-- `json.Unmarshal(line, &ph)` for `ph` a struct with the single field
`Type string `json:"type"``: fails when the line is not well-formed JSON or
its top-level value is neither an object nor `null`, or a `type` key holds a
non-string non-null value; a missing `type` key leaves `Type` as `""`. -/
def unmarshalPriceOrHeartbeat (parsed : Option JValue) :
    Except DecodeError PriceOrHeartbeat :=
  match parsed with
  | none => Except.error DecodeError.invalidJSON
  | some JValue.null => Except.ok { «Type» := "" }
  | some (JValue.obj fields) =>
    (fields.foldl decodeTypeFieldStep (Except.ok "")).map (fun s => { «Type» := s })
  | some _ => Except.error DecodeError.notAnObject

/-- `json.Unmarshal(line, &th)` for `TransactionOrHeartbeat`, the same
one-field struct. -/
def unmarshalTransactionOrHeartbeat (parsed : Option JValue) :
    Except DecodeError PriceOrHeartbeat :=
  unmarshalPriceOrHeartbeat parsed

/-- One line of a live stream: its raw bytes and the outcome of parsing it as
JSON (`none` = not well-formed JSON). -/
structure StreamLine where
  raw : String
  parsed : Option JValue

/-- Why the consumer loop `return err`-ed: `io.EOF` from `ReadLine` at
end-of-stream, or a `json.Unmarshal` failure. -/
inductive ReadOrDecodeError where
  | eof
  | decode (e : DecodeError)
deriving DecidableEq, Repr

/-- How the consumer loop ends: `errReturn e` is `return err` with a non-nil
error; `okReturn` is reaching the `return err` after the loop with a nil
error (only reachable through the `line == nil` break). -/
inductive StreamExit where
  | errReturn (e : ReadOrDecodeError)
  | okReturn
deriving DecidableEq, Repr

/-- The read loop of `getStream` (price feed) over a finite input: returns
the lines printed to stdout, the number of heartbeat signals sent on
`heartbeatChannel`, and how the loop ended.  `heartbeatArmed` is
`heartbeatTimeout != 0`; `heartbeat` is the print-heartbeats flag.  An
exhausted input makes `ReadLine` report `io.EOF`, and the code's
`if err != nil { return err }` returns that error (the subsequent
`if line == nil { break }` is unreachable: ReadLine never returns a nil line
together with a nil error). -/
def getStreamLoop (heartbeatArmed heartbeat : Bool) :
    List StreamLine → List String × Nat × StreamExit
  | [] => ([], 0, StreamExit.errReturn ReadOrDecodeError.eof)
  | l :: rest =>
    match unmarshalPriceOrHeartbeat l.parsed with
    | Except.error e => ([], 0, StreamExit.errReturn (ReadOrDecodeError.decode e))
    | Except.ok ph =>
      let r := getStreamLoop heartbeatArmed heartbeat rest
      if ph.«Type» = "PRICE" then
        (l.raw :: r.1, r.2.1, r.2.2)
      else if ph.«Type» = "HEARTBEAT" then
        ((if heartbeat then l.raw :: r.1 else r.1),
         (if heartbeatArmed then r.2.1 + 1 else r.2.1),
         r.2.2)
      else
        r

/-- `getStream` after connection set-up: `heartbeatTimeout` is the Go
`time.Duration` (an integer nanosecond count); the loop's sends are guarded
by `heartbeatTimeout != 0`. -/
def getStream (heartbeatTimeout : Int) (heartbeat : Bool) (input : List StreamLine) :
    List String × Nat × StreamExit :=
  getStreamLoop (decide (heartbeatTimeout ≠ 0)) heartbeat input

/-- The read loop of `getTransactionStream`: identical to `getStreamLoop`
except that every decoded line whose `type` is not `"HEARTBEAT"` is printed. -/
def getTransactionStreamLoop (heartbeatArmed heartbeat : Bool) :
    List StreamLine → List String × Nat × StreamExit
  | [] => ([], 0, StreamExit.errReturn ReadOrDecodeError.eof)
  | l :: rest =>
    match unmarshalTransactionOrHeartbeat l.parsed with
    | Except.error e => ([], 0, StreamExit.errReturn (ReadOrDecodeError.decode e))
    | Except.ok th =>
      let r := getTransactionStreamLoop heartbeatArmed heartbeat rest
      if th.«Type» = "HEARTBEAT" then
        ((if heartbeat then l.raw :: r.1 else r.1),
         (if heartbeatArmed then r.2.1 + 1 else r.2.1),
         r.2.2)
      else
        (l.raw :: r.1, r.2.1, r.2.2)

/-- `getTransactionStream` after connection set-up. -/
def getTransactionStream (heartbeatTimeout : Int) (heartbeat : Bool)
    (input : List StreamLine) : List String × Nat × StreamExit :=
  getTransactionStreamLoop (decide (heartbeatTimeout ≠ 0)) heartbeat input

/-- The two events the watchdog goroutine's `select` can wake on. -/
inductive WatchdogEvent where
  | heartbeatSignal
  | timeoutElapsed
deriving DecidableEq, Repr

/-- What one iteration of the watchdog goroutine does: receiving a signal
falls through the `select` and loops (a fresh `time.After(heartbeatTimeout)`
is created, resetting the pending timeout); the timer firing runs
`panic("heartbeat timeout")`, abnormal process termination — there is no
error-return constructor because the goroutine has no way to return an
error. -/
inductive WatchdogStep where
  | rearm
  | panicked
deriving DecidableEq, Repr

/-- One iteration of the watchdog goroutine's `for { select { ... } }`. -/
def watchdogStep : WatchdogEvent → WatchdogStep
  | WatchdogEvent.heartbeatSignal => WatchdogStep.rearm
  | WatchdogEvent.timeoutElapsed => WatchdogStep.panicked

/-- Whether `getStream`/`getTransactionStream` starts the watchdog goroutine:
the `go func() { ... }()` is guarded by `if heartbeatTimeout != 0`. -/
def watchdogSpawned (heartbeatTimeout : Int) : Bool :=
  decide (heartbeatTimeout ≠ 0)

/-- Go struct `CandlestickData { O, H, L, C string }`. -/
structure CandlestickData where
  o : String
  h : String
  l : String
  c : String
deriving DecidableEq, Repr

/-- Go struct `Candlestick`: completeness flag, tick volume, timestamp
(modelled as an integer instant), and the three optional price views. -/
structure Candlestick where
  Complete : Bool
  Volume : Int
  Time : Int
  Mid : Option CandlestickData
  Bid : Option CandlestickData
  Ask : Option CandlestickData
deriving DecidableEq, Repr

/-- `func (self *Candlestick) NewerThan(other *Candlestick) bool`:
`self.Time.After(other.Time)` is `>`, `Equal` is `=`. -/
def Candlestick.NewerThan (self other : Candlestick) : Bool :=
  if self.Time > other.Time then
    true
  else if self.Time = other.Time then
    if self.Complete == false && other.Complete == false then
      decide (self.Volume > other.Volume)
    else if self.Complete == true && other.Complete == false then
      true
    else
      false
  else
    false

/-- The emission guard of `getCandlesStream`'s inner loop:
`lastCandle == nil || candle.NewerThan(lastCandle)`. -/
def shouldEmit (lastCandle : Option Candlestick) (candle : Candlestick) : Bool :=
  match lastCandle with
  | none => true
  | some lc => candle.NewerThan lc

/-- The inner loop of `getCandlesStream` over one batch: the candles printed,
in batch order.  `lastCandle` is NOT updated between iterations — the cursor
advances only after the whole batch (as in the source, where the
`lastCandle = ...` assignment follows the loop).  With `completedOnly` set an
incomplete candle is skipped by `continue` before the emission guard. -/
def processBatch (completedOnly : Bool) (lastCandle : Option Candlestick) :
    List Candlestick → List Candlestick
  | [] => []
  | candle :: rest =>
    if completedOnly && candle.Complete == false then
      processBatch completedOnly lastCandle rest
    else if shouldEmit lastCandle candle then
      candle :: processBatch completedOnly lastCandle rest
    else
      processBatch completedOnly lastCandle rest

/-- Failure modes of one `getCandlesForStream` call. -/
inductive PollError where
  | non200 (status : Nat) (body : String)
  | decodeFailed (e : DecodeError)
deriving DecidableEq, Repr

/-- An HTTP response to one candles poll: its status code and the outcome of
parsing its body as JSON (`none` = body text that is not well-formed JSON). -/
structure PollResponse where
  statusCode : Nat
  bodyText : String
  body : Option JValue

/-- One field of the response-body object, applied in order to the
accumulated value of the `Candles *[]Candlestick `json:"candles"`` field.
Keys are matched to the struct's three fields case-insensitively (`eqFold`):
a key matching `candles` with a JSON `null` value leaves the pointer nil, any
other value is decoded by `decodeCandles` (the element-wise candle decoder,
abstracted here) and stored through a fresh pointer; a key matching
`granularity` or `instrument` must hold a string or `null`, anything else is
an UnmarshalTypeError; a key matching no field is ignored.  An error, once
hit, is what the unmarshal reports (Go saves the first error; it keeps
decoding the remaining fields, but their values are discarded with the
erroring unmarshal, so the short-circuit is observationally the same). -/
def candlesFieldStep (decodeCandles : JValue → Except DecodeError (List Candlestick))
    (acc : Option (List Candlestick)) (kv : String × JValue) :
    Except DecodeError (Option (List Candlestick)) :=
  if eqFold kv.1 "candles" then
    match kv.2 with
    | JValue.null => Except.ok none
    | v => (decodeCandles v).map some
  else if eqFold kv.1 "granularity" || eqFold kv.1 "instrument" then
    if isStringOrNull kv.2 then
      Except.ok acc
    else
      Except.error (DecodeError.stringFieldNotString kv.1)
  else
    Except.ok acc

/-- `json.Unmarshal(bytes, &body)` for `CandlesResponseBody`, tracking its
`Candles` field: when no key of the top-level object matches `candles`
(case-insensitively) and every key matching `granularity` or `instrument` is
well-typed, the `*[]Candlestick` pointer is left at its zero value, nil —
with no error. -/
def unmarshalCandlesField (decodeCandles : JValue → Except DecodeError (List Candlestick)) :
    JValue → Except DecodeError (Option (List Candlestick))
  | JValue.null => Except.ok none
  | JValue.obj fields => fields.foldlM (candlesFieldStep decodeCandles) none
  | _ => Except.error DecodeError.notAnObject

/-- `getCandlesForStream` after the HTTP request: a non-200 status returns
the body text as an error; otherwise the body is unmarshalled and
`body.Candles` — possibly nil — is returned with a nil error. -/
def getCandlesForStream (decodeCandles : JValue → Except DecodeError (List Candlestick))
    (res : PollResponse) : Except PollError (Option (List Candlestick)) :=
  if res.statusCode ≠ 200 then
    Except.error (PollError.non200 res.statusCode res.bodyText)
  else
    match res.body with
    | none => Except.error (PollError.decodeFailed DecodeError.invalidJSON)
    | some j =>
      match unmarshalCandlesField decodeCandles j with
      | Except.error e => Except.error (PollError.decodeFailed e)
      | Except.ok cs => Except.ok cs

/-- Outcome of one iteration of `getCandlesStream`'s outer `for` loop. -/
inductive CycleResult where
  | fatalError (e : PollError)
  | panicNilDeref
  | next (emitted : List Candlestick) (lastCandle : Option Candlestick) (fromTime : Int)
deriving DecidableEq, Repr

/-- One iteration of `getCandlesStream`'s outer loop, given the result of its
`getCandlesForStream` call.  A fetch error is `return err`.  A nil `candles`
pointer with a nil error makes `for _, candle := range *candles` (and
`len(*candles)`) dereference nil: a Go runtime panic, `panicNilDeref`.
Otherwise the batch is processed against the unchanged cursor, and then — for
a non-empty batch only — `lastCandle` becomes the batch's final candle and
`from` that candle's `Time`, emitted or not, complete or not. -/
def pollCycle (completedOnly : Bool) (lastCandle : Option Candlestick) (fromTime : Int)
    (fetched : Except PollError (Option (List Candlestick))) : CycleResult :=
  match fetched with
  | Except.error e => CycleResult.fatalError e
  | Except.ok none => CycleResult.panicNilDeref
  | Except.ok (some candles) =>
    let emitted := processBatch completedOnly lastCandle candles
    match candles.getLast? with
    | none => CycleResult.next emitted lastCandle fromTime
    | some last => CycleResult.next emitted (some last) last.Time

/-- `getCandlesStream` run over a finite sequence of successfully fetched
batches: the per-cycle emissions, and the final cursor and window-start. -/
def runPoller (completedOnly : Bool) :
    Option Candlestick → Int → List (List Candlestick) →
      List (List Candlestick) × Option Candlestick × Int
  | lastCandle, fromTime, [] => ([], lastCandle, fromTime)
  | lastCandle, fromTime, batch :: more =>
    match pollCycle completedOnly lastCandle fromTime (Except.ok (some batch)) with
    | CycleResult.next emitted lc ft =>
      let r := runPoller completedOnly lc ft more
      (emitted :: r.1, r.2.1, r.2.2)
    | _ => ([], lastCandle, fromTime)

/-! Concrete data for the spec's scenarios.  10:00 and 10:05 are the instants
36000 and 36300 (seconds of the day). -/

/-- The t=10:00, incomplete, volume-3 bar of the spec's poller scenario. -/
def candleA : Candlestick := ⟨false, 3, 36000, none, none, none⟩

/-- The t=10:00, complete, volume-5 bar of the spec's poller scenario. -/
def candleB : Candlestick := ⟨true, 5, 36000, none, none, none⟩

/-- The t=10:05, incomplete, volume-1 bar of the spec's poller scenario. -/
def candleC : Candlestick := ⟨false, 1, 36300, none, none, none⟩

/-- The scenario line `\x7b"type":"PRICE","instrument":"EUR_USD"\x7d`. -/
def priceLine : StreamLine :=
  ⟨"\x7b\"type\":\"PRICE\",\"instrument\":\"EUR_USD\"\x7d",
   some (JValue.obj [("type", JValue.str "PRICE"), ("instrument", JValue.str "EUR_USD")])⟩

/-- The scenario line `\x7b"type":"HEARTBEAT"\x7d`. -/
def heartbeatLine : StreamLine :=
  ⟨"\x7b\"type\":\"HEARTBEAT\"\x7d", some (JValue.obj [("type", JValue.str "HEARTBEAT")])⟩

/-- The line `\x7b\x7d`: well-formed JSON with no `type` field. -/
def emptyObjectLine : StreamLine := ⟨"\x7b\x7d", some (JValue.obj [])⟩

/-- A transaction-feed payload line, `\x7b"type":"ORDER_FILL"\x7d`. -/
def orderFillLine : StreamLine :=
  ⟨"\x7b\"type\":\"ORDER_FILL\"\x7d", some (JValue.obj [("type", JValue.str "ORDER_FILL")])⟩

/-- The line `\x7b"Type":"PRICE"\x7d`: the key `Type` matches the
discriminant field case-insensitively, so the line decodes as a PRICE line. -/
def typeCapsLine : StreamLine :=
  ⟨"\x7b\"Type\":\"PRICE\"\x7d", some (JValue.obj [("Type", JValue.str "PRICE")])⟩

/-! Helper lemmas. -/

theorem foldl_decodeTypeFieldStep_error (fields : List (String × JValue))
    (e : DecodeError) :
    fields.foldl decodeTypeFieldStep (Except.error e) = Except.error e := by
  induction fields with
  | nil => rfl
  | cons kv rest ih => simpa [decodeTypeFieldStep] using ih

theorem foldl_decodeTypeFieldStep_error_iff (fields : List (String × JValue))
    (init : String) :
    (∃ e, fields.foldl decodeTypeFieldStep (Except.ok init) = Except.error e) ↔
      ∃ kv ∈ fields, eqFold kv.1 "type" = true ∧ isStringOrNull kv.2 = false := by
  induction fields generalizing init with
  | nil => simp
  | cons kv rest ih =>
    by_cases hk : eqFold kv.1 "type" = true
    · cases hv : kv.2 <;>
        simp_all [decodeTypeFieldStep, isStringOrNull,
          foldl_decodeTypeFieldStep_error]
    · simp_all [decodeTypeFieldStep, isStringOrNull]

theorem getStreamLoop_signals_zero (hb : Bool) (input : List StreamLine) :
    (getStreamLoop false hb input).2.1 = 0 := by
  induction input with
  | nil => rfl
  | cons l rest ih =>
    simp only [getStreamLoop]
    cases unmarshalPriceOrHeartbeat l.parsed with
    | error e => rfl
    | ok ph =>
      simp only []
      split
      · exact ih
      · split <;> simpa using ih
  -- the per-line cases all hand the signal count through unchanged

theorem getStreamLoop_output_sub (armed hb : Bool) (input : List StreamLine)
    (out : String) (hout : out ∈ (getStreamLoop armed hb input).1) :
    ∃ l ∈ input, out = l.raw := by
  induction input with
  | nil => simp [getStreamLoop] at hout
  | cons l rest ih =>
    simp only [getStreamLoop] at hout
    cases hdec : unmarshalPriceOrHeartbeat l.parsed with
    | error e => simp [hdec] at hout
    | ok ph =>
      rw [hdec] at hout
      simp only [] at hout
      split at hout
      · rcases List.mem_cons.mp hout with h | h
        · exact ⟨l, List.mem_cons_self l rest, h⟩
        · obtain ⟨l2, hl2, hr⟩ := ih h
          exact ⟨l2, List.mem_cons_of_mem l hl2, hr⟩
      · split at hout
        · split at hout
          · rcases List.mem_cons.mp hout with h | h
            · exact ⟨l, List.mem_cons_self l rest, h⟩
            · obtain ⟨l2, hl2, hr⟩ := ih h
              exact ⟨l2, List.mem_cons_of_mem l hl2, hr⟩
          · obtain ⟨l2, hl2, hr⟩ := ih hout
            exact ⟨l2, List.mem_cons_of_mem l hl2, hr⟩
        · obtain ⟨l2, hl2, hr⟩ := ih hout
          exact ⟨l2, List.mem_cons_of_mem l hl2, hr⟩

theorem foldlM_candlesFieldStep_skip
    (decodeCandles : JValue → Except DecodeError (List Candlestick))
    (fields : List (String × JValue)) (acc : Option (List Candlestick))
    (hc : ∀ kv ∈ fields, eqFold kv.1 "candles" = false)
    (hs : ∀ kv ∈ fields, (eqFold kv.1 "granularity" || eqFold kv.1 "instrument") = true →
      isStringOrNull kv.2 = true) :
    fields.foldlM (candlesFieldStep decodeCandles) acc = Except.ok acc := by
  induction fields generalizing acc with
  | nil => rfl
  | cons kv rest ih =>
    have hk : eqFold kv.1 "candles" = false := hc kv (List.mem_cons_self kv rest)
    have hcrest : ∀ kv2 ∈ rest, eqFold kv2.1 "candles" = false :=
      fun kv2 hm => hc kv2 (List.mem_cons_of_mem kv hm)
    have hsrest : ∀ kv2 ∈ rest,
        (eqFold kv2.1 "granularity" || eqFold kv2.1 "instrument") = true →
        isStringOrNull kv2.2 = true :=
      fun kv2 hm => hs kv2 (List.mem_cons_of_mem kv hm)
    by_cases hgi : (eqFold kv.1 "granularity" || eqFold kv.1 "instrument") = true
    · have hstr : isStringOrNull kv.2 = true := hs kv (List.mem_cons_self kv rest) hgi
      simp only [List.foldlM, candlesFieldStep, hk, hgi, hstr, Bool.false_eq_true,
        if_false, if_true]
      exact ih acc hcrest hsrest
    · simp only [List.foldlM, candlesFieldStep, hk, Bool.false_eq_true, if_false,
        eq_false_of_ne_true hgi]
      exact ih acc hcrest hsrest

/-! The claims. -/

/-- C1: `Candlestick.NewerThan` is fully characterized: true when the
candidate's time is strictly later; false when strictly earlier; at equal
times, true exactly when the candidate is complete and the last-emitted is
not, or both are incomplete and the candidate's volume is strictly larger. -/
theorem newerThan_characterization (A B : Candlestick) :
    B.NewerThan A = true ↔
      A.Time < B.Time ∨
        (B.Time = A.Time ∧
          ((B.Complete = true ∧ A.Complete = false) ∨
           (B.Complete = false ∧ A.Complete = false ∧ A.Volume < B.Volume))) := by
  cases hB : B.Complete <;> cases hA : A.Complete <;>
    simp [Candlestick.NewerThan, hB, hA] <;> omega

/-- C2: starting the poller with an empty cursor and feeding batch 1 =
[t=10:00 incomplete vol 3] then batch 2 = [t=10:00 complete vol 5, t=10:05
incomplete vol 1] with completedOnly=false emits exactly one line after
batch 1 and exactly two lines after batch 2 — the finalized 10:00 bar, then
the new 10:05 bar, in that order. -/
theorem pollerScenario_emissions :
    runPoller false none 36000 [[candleA], [candleB, candleC]] =
      ([[candleA], [candleB, candleC]], some candleC, 36300) := by
  rfl

/-- C3 (code evaluated at the failing input): on the scenario input — the
PRICE line, the HEARTBEAT line, then end-of-stream — with printHeartbeats
false, the consumer prints exactly the PRICE line, but terminates by
returning the io.EOF read error, not success: `ReadLine` reports io.EOF at
end-of-stream and `if err != nil { return err }` returns it, so the
`line == nil` break (the intended normal-exit path) is never reached. -/
theorem streamEofScenario :
    getStream 0 false [priceLine, heartbeatLine] =
      ([priceLine.raw], 0, StreamExit.errReturn ReadOrDecodeError.eof) ∧
    (getStream 0 false [priceLine, heartbeatLine]).2.2 ≠ StreamExit.okReturn := by
  exact ⟨rfl, by decide⟩

/-- C4 counterexample: the line `\x7b\x7d` is well-formed JSON lacking the
discriminant field `type`, yet the decoder accepts it (`Type` is left `""`,
no DecodeError) — and the consumer, though it accepted the line, emits
nothing for it (even with the print-heartbeats flag set), so "every accepted
line is emitted" fails too. -/
theorem decoderMissingType_counterexample :
    unmarshalPriceOrHeartbeat emptyObjectLine.parsed =
      Except.ok { «Type» := "" } ∧
    getStream 0 true [emptyObjectLine] =
      ([], 0, StreamExit.errReturn ReadOrDecodeError.eof) := by
  exact ⟨rfl, rfl⟩

/-- C4 amended: the decoder fails with a DecodeError exactly when the line is
not valid JSON, its top-level value is neither an object nor null, or some
key matching `type` case-insensitively (encoding/json field matching) holds a
value that is neither a string nor null — a line with no such key is accepted
with an empty discriminant, while a case-variant key such as `"Type"` does
set it (that line decodes as a PRICE line and is emitted); a decode failure
makes the consumer return the error immediately with no output; and every
line the consumer does emit is the raw bytes of some input line,
unmodified. -/
theorem decoder_amended :
    (∀ parsed : Option JValue,
        (∃ e, unmarshalPriceOrHeartbeat parsed = Except.error e) ↔
          parsed = none ∨
          (∃ j, parsed = some j ∧ isObjOrNull j = false) ∨
          (∃ fields, parsed = some (JValue.obj fields) ∧
            ∃ kv ∈ fields, eqFold kv.1 "type" = true ∧ isStringOrNull kv.2 = false))
  ∧ (∀ (armed hb : Bool) (l : StreamLine) (rest : List StreamLine)
        (e : DecodeError), unmarshalPriceOrHeartbeat l.parsed = Except.error e →
        getStreamLoop armed hb (l :: rest) =
          ([], 0, StreamExit.errReturn (ReadOrDecodeError.decode e)))
  ∧ (∀ (armed hb : Bool) (input : List StreamLine) (out : String),
        out ∈ (getStreamLoop armed hb input).1 → ∃ l ∈ input, out = l.raw)
  ∧ (unmarshalPriceOrHeartbeat typeCapsLine.parsed =
        Except.ok { «Type» := "PRICE" } ∧
      getStream 0 false [typeCapsLine] =
        ([typeCapsLine.raw], 0, StreamExit.errReturn ReadOrDecodeError.eof)) := by
  refine ⟨?_, ?_, ?_, rfl, rfl⟩
  · intro parsed
    match parsed with
    | none => simp [unmarshalPriceOrHeartbeat]
    | some JValue.null => simp [unmarshalPriceOrHeartbeat, isObjOrNull]
    | some (JValue.obj fields) =>
      rw [show (∃ e, unmarshalPriceOrHeartbeat (some (JValue.obj fields)) =
            Except.error e) ↔
          (∃ e, fields.foldl decodeTypeFieldStep (Except.ok "") =
            Except.error e) from ?map]
      · rw [foldl_decodeTypeFieldStep_error_iff]
        simp [isObjOrNull]
      · constructor
        · rintro ⟨e, he⟩
          simp only [unmarshalPriceOrHeartbeat] at he
          cases hf : fields.foldl decodeTypeFieldStep (Except.ok "") with
          | error e2 => exact ⟨e2, rfl⟩
          | ok s => rw [hf] at he; simp [Except.map] at he
        · rintro ⟨e, he⟩
          exact ⟨e, by simp [unmarshalPriceOrHeartbeat, he, Except.map]⟩
    | some (JValue.bool b) => simp [unmarshalPriceOrHeartbeat, isObjOrNull]
    | some (JValue.num n) => simp [unmarshalPriceOrHeartbeat, isObjOrNull]
    | some (JValue.str s) => simp [unmarshalPriceOrHeartbeat, isObjOrNull]
    | some (JValue.arr xs) => simp [unmarshalPriceOrHeartbeat, isObjOrNull]
  · intro armed hb l rest e he
    simp [getStreamLoop, he]
  · intro armed hb input out hout
    exact getStreamLoop_output_sub armed hb input out hout

/-- C4 amended, witnessed: the concrete line holding the JSON number 5 (a
top-level value that is neither an object nor null) is rejected by the
decoder. -/
theorem decoder_amended_witness :
    ∃ e, unmarshalPriceOrHeartbeat (some (JValue.num 5)) = Except.error e :=
  (decoder_amended.1 (some (JValue.num 5))).mpr
    (Or.inr (Or.inl ⟨JValue.num 5, rfl, rfl⟩))

/-- C5: after a poll cycle with a non-empty batch, the cursor becomes the
batch's final bar — whatever its completeness, emitted or not — and the next
window-start becomes that bar's time; an empty batch leaves both untouched. -/
theorem cursorAdvance :
    (∀ (completedOnly : Bool) (lastCandle : Option Candlestick) (fromTime : Int)
        (batch : List Candlestick) (last : Candlestick),
        batch.getLast? = some last →
        pollCycle completedOnly lastCandle fromTime (Except.ok (some batch)) =
          CycleResult.next (processBatch completedOnly lastCandle batch)
            (some last) last.Time)
  ∧ (∀ (completedOnly : Bool) (lastCandle : Option Candlestick) (fromTime : Int),
        pollCycle completedOnly lastCandle fromTime (Except.ok (some [])) =
          CycleResult.next [] lastCandle fromTime) := by
  constructor
  · intro completedOnly lastCandle fromTime batch last h
    simp [pollCycle, h]
  · intro completedOnly lastCandle fromTime
    rfl

/-- C5, witnessed on a concrete two-bar batch: the cursor becomes the final
(incomplete, unemitted-or-not) bar and the window-start its time. -/
theorem cursorAdvance_witness :
    pollCycle false none 0 (Except.ok (some [candleA, candleC])) =
      CycleResult.next (processBatch false none [candleA, candleC])
        (some candleC) candleC.Time :=
  cursorAdvance.1 false none 0 [candleA, candleC] candleC rfl

/-- C6 counterexample: with completed-only mode set, the batch holding only
the t=10:00 incomplete bar emits nothing — yet that skipped incomplete bar
still becomes the cursor (lastEmitted goes from none to that bar, and the
window-start to its time), so it does make a cursor update contribution. -/
theorem completedOnlyCursor_counterexample :
    runPoller true none 0 [[candleA]] = ([[]], some candleA, 36000) ∧
    candleA.Complete = false := by
  exact ⟨rfl, rfl⟩

/-- C6 amended: with completed-only mode set, every incomplete bar is skipped
for output — not emitted, no dedup check — but the cursor advance is
unaffected by the mode: the batch's final bar becomes the cursor even when
incomplete and skipped.  On the two-batch scenario the t=10:05 incomplete
emission is suppressed while the finalized t=10:00 bar is still emitted (and
the cursor ends at the skipped t=10:05 bar). -/
theorem completedOnly_amended :
    (∀ (lastCandle : Option Candlestick) (c : Candlestick)
        (rest : List Candlestick), c.Complete = false →
        processBatch true lastCandle (c :: rest) =
          processBatch true lastCandle rest)
  ∧ runPoller true none 36000 [[candleA], [candleB, candleC]] =
      ([[], [candleB]], some candleC, 36300) := by
  constructor
  · intro lastCandle c rest h
    simp [processBatch, h]
  · rfl

/-- C6 amended, witnessed: skipping the concrete incomplete t=10:00 bar in
front of a batch changes no emission. -/
theorem completedOnly_amended_witness :
    processBatch true none (candleA :: [candleB]) = processBatch true none [candleB] :=
  completedOnly_amended.1 none candleA [candleB] rfl

/-- C7: a zero heartbeatTimeout spawns no watchdog goroutine and the consumer
sends no heartbeat signal on any input; a nonzero timeout spawns it, a
received signal re-arms the pending timeout, and the timeout elapsing panics
(abnormal process termination — `WatchdogStep` has no error-return
constructor, a goroutine cannot return an error). -/
theorem watchdog_behavior :
    (∀ (hb : Bool) (input : List StreamLine),
        watchdogSpawned 0 = false ∧ (getStream 0 hb input).2.1 = 0)
  ∧ (∀ t : Int, t ≠ 0 → watchdogSpawned t = true)
  ∧ watchdogStep WatchdogEvent.heartbeatSignal = WatchdogStep.rearm
  ∧ watchdogStep WatchdogEvent.timeoutElapsed = WatchdogStep.panicked := by
  refine ⟨?_, ?_, rfl, rfl⟩
  · intro hb input
    exact ⟨rfl, getStreamLoop_signals_zero hb input⟩
  · intro t ht
    simp [watchdogSpawned, ht]

/-- C7, witnessed: a 6-second (nonzero) timeout arms the watchdog. -/
theorem watchdog_behavior_witness : watchdogSpawned 6000000000 = true :=
  watchdog_behavior.2.1 6000000000 (by decide)

/-- C8: replaying the completed cursor candle itself is never an emission:
for every complete candle C, `NewerThan C C` is false, and the poller's batch
loop with cursor C emits nothing from the batch [C] in either mode. -/
theorem completedReplay_idempotent (C : Candlestick) (h : C.Complete = true) :
    C.NewerThan C = false ∧
      ∀ completedOnly : Bool, processBatch completedOnly (some C) [C] = [] := by
  have hnew : C.NewerThan C = false := by
    simp [Candlestick.NewerThan, h]
  refine ⟨hnew, ?_⟩
  intro completedOnly
  simp [processBatch, shouldEmit, hnew, h]

/-- C8, witnessed on the concrete completed t=10:00 bar. -/
theorem completedReplay_idempotent_witness :
    candleB.NewerThan candleB = false ∧
      ∀ completedOnly : Bool, processBatch completedOnly (some candleB) [candleB] = [] :=
  completedReplay_idempotent candleB rfl

/-- C9: a 200-status poll response whose well-formed JSON body lacks the
`candles` field — no key matches it, even case-insensitively, and the
remaining recognized fields are well-typed, so the unmarshal succeeds — makes
`getCandlesForStream` return a nil slice pointer with a nil error, and the
poller's next step on that result is the nil-pointer dereference panic at
`range *candles` / `len(*candles)` — not an error return. -/
theorem nilCandles_panics
    (decodeCandles : JValue → Except DecodeError (List Candlestick))
    (fields : List (String × JValue))
    (hc : ∀ kv ∈ fields, eqFold kv.1 "candles" = false)
    (hs : ∀ kv ∈ fields,
      (eqFold kv.1 "granularity" || eqFold kv.1 "instrument") = true →
      isStringOrNull kv.2 = true)
    (completedOnly : Bool) (lastCandle : Option Candlestick) (fromTime : Int)
    (bodyText : String) :
    getCandlesForStream decodeCandles ⟨200, bodyText, some (JValue.obj fields)⟩ =
      Except.ok none ∧
    pollCycle completedOnly lastCandle fromTime
      (getCandlesForStream decodeCandles ⟨200, bodyText, some (JValue.obj fields)⟩) =
      CycleResult.panicNilDeref := by
  have hok : getCandlesForStream decodeCandles
      ⟨200, bodyText, some (JValue.obj fields)⟩ = Except.ok none := by
    simp [getCandlesForStream, unmarshalCandlesField,
      foldlM_candlesFieldStep_skip decodeCandles fields none hc hs]
  exact ⟨hok, by rw [hok]; rfl⟩

/-- C9, witnessed on the concrete body
`\x7b"granularity":"S5","instrument":"USD_JPY"\x7d`. -/
theorem nilCandles_panics_witness :
    getCandlesForStream (fun _ => Except.ok [])
      ⟨200, "", some (JValue.obj
        [("granularity", JValue.str "S5"), ("instrument", JValue.str "USD_JPY")])⟩ =
      Except.ok none ∧
    pollCycle false none 0
      (getCandlesForStream (fun _ => Except.ok [])
        ⟨200, "", some (JValue.obj
          [("granularity", JValue.str "S5"), ("instrument", JValue.str "USD_JPY")])⟩) =
      CycleResult.panicNilDeref :=
  nilCandles_panics (fun _ => Except.ok [])
    [("granularity", JValue.str "S5"), ("instrument", JValue.str "USD_JPY")]
    (by decide) (by decide) false none 0 ""

/-- C10: the price consumer silently drops a well-formed line whose `type` is
neither "PRICE" nor "HEARTBEAT" — same outputs, same signal count, same exit
as without the line — while the transaction consumer prints every well-formed
line whose `type` is not "HEARTBEAT" and otherwise continues identically. -/
theorem unknownType_behavior :
    (∀ (armed hb : Bool) (l : StreamLine) (rest : List StreamLine)
        (ph : PriceOrHeartbeat),
        unmarshalPriceOrHeartbeat l.parsed = Except.ok ph →
        ph.«Type» ≠ "PRICE" → ph.«Type» ≠ "HEARTBEAT" →
        getStreamLoop armed hb (l :: rest) = getStreamLoop armed hb rest)
  ∧ (∀ (armed hb : Bool) (l : StreamLine) (rest : List StreamLine)
        (th : PriceOrHeartbeat),
        unmarshalTransactionOrHeartbeat l.parsed = Except.ok th →
        th.«Type» ≠ "HEARTBEAT" →
        getTransactionStreamLoop armed hb (l :: rest) =
          (l.raw :: (getTransactionStreamLoop armed hb rest).1,
           (getTransactionStreamLoop armed hb rest).2.1,
           (getTransactionStreamLoop armed hb rest).2.2)) := by
  constructor
  · intro armed hb l rest ph hdec hp hh
    simp [getStreamLoop, hdec, hp, hh]
  · intro armed hb l rest th hdec hh
    simp [getTransactionStreamLoop, hdec, hh]

/-- C10, witnessed on the concrete ORDER_FILL line: the price consumer drops
it, the transaction consumer prints it. -/
theorem unknownType_behavior_witness :
    getStreamLoop false false [orderFillLine] = getStreamLoop false false [] ∧
    getTransactionStreamLoop false false [orderFillLine] =
      (orderFillLine.raw :: (getTransactionStreamLoop false false []).1,
       (getTransactionStreamLoop false false []).2.1,
       (getTransactionStreamLoop false false []).2.2) :=
  ⟨unknownType_behavior.1 false false orderFillLine [] ⟨"ORDER_FILL"⟩ rfl
      (by decide) (by decide),
   unknownType_behavior.2 false false orderFillLine [] ⟨"ORDER_FILL"⟩ rfl
      (by decide)⟩

end Oanda
